import Mathlib

/-!
Verification development for the `zoom-infinity-dream` repository.

The repository is a browser tool made of two components plus an
orchestrating page:

* `VideoFrameExtractor` (file `src/unnamed/part_000`): seeks an HTML
  video element through uniformly spaced times, rasterizes each frame to
  a canvas, encodes it as a data URI, and reports percentage progress.
* `InfiniteZoomViewer` (file `src/unnamed/part_001`): given the list of
  extracted frames, maintains interactive state (frame index, zoom, pan,
  auto-play, drag) mutated by wheel, keyboard, slider, mouse and timer
  inputs.
* `Index` (file `src/src/pages/Index.tsx`): passes the frames from the
  extractor to the viewer.

The shallow embedding below translates the pure logic of those files:
JavaScript numbers are modelled as rationals, except where `NaN` can
arise (the viewer's frame index after `x % 0`), where an `Option` is
used with `none` playing the role of `NaN`.  React `useState` state is
modelled as explicit state records, event handlers as state-transition
functions, and the set of events the DOM can actually deliver (sliders
constrain their values; handlers attached only when the component
renders them) as a validity predicate on inputs.
-/

namespace ZoomInfinityDream

/-! ## Frame extractor (`src/unnamed/part_000`) -/

/-- `const FRAME_SIZE = 100;` -/
def FRAME_SIZE : ℕ := 100

/-- `const maxDimension = 800;` inside `extractFrames`. -/
def maxDimension : ℚ := 800

/-- The queryable fields of the loaded `HTMLVideoElement`:
`video.duration`, `video.videoWidth`, `video.videoHeight`. -/
structure VideoSource where
  duration : ℚ
  videoWidth : ℚ
  videoHeight : ℚ
deriving DecidableEq

/-- Canvas sizing in `extractFrames`:

```
const aspectRatio = video.videoWidth / video.videoHeight;
if (video.videoWidth > video.videoHeight) {
  canvas.width = Math.min(maxDimension, video.videoWidth);
  canvas.height = canvas.width / aspectRatio;
} else {
  canvas.height = Math.min(maxDimension, video.videoHeight);
  canvas.width = canvas.height * aspectRatio;
}
```

Returns `(canvas.width, canvas.height)`. -/
def canvasSize (video : VideoSource) : ℚ × ℚ :=
  let aspectRatio := video.videoWidth / video.videoHeight
  if video.videoWidth > video.videoHeight then
    let w := min maxDimension video.videoWidth
    (w, w / aspectRatio)
  else
    let h := min maxDimension video.videoHeight
    (h * aspectRatio, h)

/-- Sample time of the `i`-th frame in `extractFrames`:
`const interval = duration / frameCount; const time = i * interval;`. -/
def sampleTime (duration : ℚ) (frameCount : ℕ) (i : ℕ) : ℚ :=
  i * (duration / frameCount)

/-- The loop of `extractFrames`: for `i = 0 .. frameCount-1`, seek to
`sampleTime`, draw to the canvas and push `canvas.toDataURL(...)` onto
`frames`.  Rasterization and JPEG encoding are host-platform effects,
abstracted as the function `rasterize` from seek time to the encoded
data-URI string.  `canvasOk` models the two early returns
`if (!canvasRef.current) return [];` and `if (!ctx) return [];`, which
yield an empty list without sampling. -/
def extractFrames (rasterize : ℚ → String) (canvasOk : Bool)
    (video : VideoSource) (frameCount : ℕ) : List String :=
  if canvasOk then
    (List.range frameCount).map fun i =>
      rasterize (sampleTime video.duration frameCount i)
  else []

/-- The progress reports issued inside the loop of `extractFrames`:
`setProgress(((i + 1) / frameCount) * 100);` once per frame. -/
def extractProgressReports (frameCount : ℕ) : List ℚ :=
  (List.range frameCount).map fun i : ℕ => ((i : ℚ) + 1) / frameCount * 100

/-- One `(isExtracting, progress)` pair per `setProgress` call during a
successful run of `handleExtractFrames`, in order:
`setIsExtracting(true); setProgress(0);` at the start, one report per
frame inside `extractFrames`, and in the `finally` block
`setIsExtracting(false); setProgress(0);` — so the trailing reset to 0
happens after the extracting flag has been cleared. -/
def handleExtractProgressEvents (frameCount : ℕ) : List (Bool × ℚ) :=
  (true, 0) :: ((extractProgressReports frameCount).map fun p => (true, p))
    ++ [(false, 0)]

/-- The progress reports issued while `isExtracting` is still true. -/
def runningProgressReports (frameCount : ℕ) : List ℚ :=
  ((handleExtractProgressEvents frameCount).filter fun e => e.1).map
    fun e => e.2

/-- Outcome of the `await`ed video load in `handleExtractFrames`:
`onloadedmetadata` resolves with the video, `onerror` rejects. -/
inductive LoadResult where
  | ok (video : VideoSource)
  | err
deriving DecidableEq

/-- `handleExtractFrames` after the load: extract, then
`if (frames.length > 0) { onFramesExtracted(frames); } else { throw ... }`,
with the `catch` branch (load failure or the explicit throw) notifying
the user and not invoking the callback.  The result is the argument
passed to `onFramesExtracted`, or `none` when the attempt failed. -/
def handleExtractFrames (rasterize : ℚ → String) (canvasOk : Bool)
    (load : LoadResult) : Option (List String) :=
  match load with
  | .err => none
  | .ok video =>
    let frames := extractFrames rasterize canvasOk video FRAME_SIZE
    if frames.length > 0 then some frames else none

/-- The selected `File`'s fields used by `handleFileSelect`. -/
structure VideoFile where
  name : String
  fileType : String
deriving DecidableEq

/-- Extractor component state: `videoFile`, `isExtracting`, `progress`. -/
structure ExtractorState where
  videoFile : Option VideoFile
  isExtracting : Bool
  progress : ℚ
deriving DecidableEq

/-- JavaScript `s.startsWith(p)`, on the characters of the strings
(Lean's `String.startsWith` is not kernel-reducible). -/
def jsStartsWith (s p : String) : Bool :=
  s.data.take p.data.length == p.data

/-- `handleFileSelect`: `if (!file) return;` then
`if (!file.type.startsWith('video/')) { toast.error(...); return; }`
then `setVideoFile(file);`. -/
def handleFileSelect (s : ExtractorState) (file : Option VideoFile) :
    ExtractorState :=
  match file with
  | none => s
  | some f =>
    if jsStartsWith f.fileType "video/" then { s with videoFile := some f }
    else s

/-- Frame count stated by the "Auto Extract" card in
`src/src/pages/Index.tsx`: "Automatically extracts 50 optimized frames
from your video". -/
def indexAutoExtractCopyCount : ℕ := 50

/-! ## Zoom viewer (`src/unnamed/part_001`) -/

/-- A JavaScript number holding the frame index: `none` models `NaN`
(which `(prev - 1 + 0) % 0` produces when the frame list is empty). -/
abbrev JSNum := Option ℤ

/-- JavaScript `a % b` on integer values: remainder with the sign of the
dividend (truncated division), and `NaN` when the divisor is `0`. -/
def jsMod (a b : ℤ) : JSNum :=
  if b = 0 then none else some (Int.tmod a b)

/-- 2D point, for `panPosition` / `lastMousePos` / mouse coordinates. -/
structure Vec2 where
  x : ℚ
  y : ℚ
deriving DecidableEq

/-- The `useState` fields of `InfiniteZoomViewer`. -/
structure ViewerState where
  currentFrameIndex : JSNum
  isAutoPlaying : Bool
  zoomLevel : ℚ
  panPosition : Vec2
  isDragging : Bool
  lastMousePos : Vec2
deriving DecidableEq

/-- The initial `useState` values: index 0, not playing, zoom 1,
pan `{x: 0, y: 0}`, not dragging, last mouse `{x: 0, y: 0}`. -/
def initialViewerState : ViewerState :=
  { currentFrameIndex := some 0
    isAutoPlaying := false
    zoomLevel := 1
    panPosition := ⟨0, 0⟩
    isDragging := false
    lastMousePos := ⟨0, 0⟩ }

/-- `handleWheel` applied to the current index, for `frames.length = len`:

```
const delta = e.deltaY > 0 ? 1 : -1;
setCurrentFrameIndex(prev => {
  const newIndex = prev + delta;
  return Math.max(0, Math.min(frames.length - 1, newIndex));
});
```

`Math.min`/`Math.max` on `NaN` give `NaN`. -/
def wheelStep (len : ℕ) (deltaY : ℚ) : JSNum → JSNum
  | none => none
  | some prev =>
    let delta : ℤ := if deltaY > 0 then 1 else -1
    some (max 0 (min ((len : ℤ) - 1) (prev + delta)))

/-- `case 'ArrowLeft': setCurrentFrameIndex(prev => (prev - 1 + frames.length) % frames.length);` -/
def arrowLeftStep (len : ℕ) : JSNum → JSNum
  | none => none
  | some prev => jsMod (prev - 1 + len) len

/-- `case 'ArrowRight': setCurrentFrameIndex(prev => (prev + 1) % frames.length);`,
also the auto-play interval body `(prev + 1) % frames.length`. -/
def arrowRightStep (len : ℕ) : JSNum → JSNum
  | none => none
  | some prev => jsMod (prev + 1) len

/-- `reset`: `setZoomLevel(1); setPanPosition({x:0,y:0});
setCurrentFrameIndex(0); setIsAutoPlaying(false);` — `isDragging` and
`lastMousePos` are untouched. -/
def resetViewer (s : ViewerState) : ViewerState :=
  { s with zoomLevel := 1, panPosition := ⟨0, 0⟩,
           currentFrameIndex := some 0, isAutoPlaying := false }

/-- The events that mutate `ViewerState`. -/
inductive Input where
  | wheel (deltaY : ℚ)
  | keyArrowLeft
  | keyArrowRight
  | keySpace
  | keyR
  | keyOther
  | autoPlayTick
  | frameSlider (v : ℤ)
  | zoomSlider (q : ℚ)
  | mouseDown (pos : Vec2)
  | mouseMove (pos : Vec2)
  | mouseUp
deriving DecidableEq

/-- Which events the DOM can actually deliver, for `frames.length = len`.
When `frames.length === 0` the component returns the placeholder card
early, so the container div with its wheel and mouse handlers and the
two sliders are never rendered; the `window` keydown listener and the
auto-play effect, installed by hooks that run before that early return,
remain active.  A rendered frame slider (`min` 0, `max` len-1, `step` 1)
emits integers in `[0, len-1]`; the zoom slider (`min` 0.5, `max` 5,
`step` 0.1) emits values in `[0.5, 5]`. -/
def validInput (len : ℕ) : Input → Bool
  | .wheel _ => 0 < len
  | .frameSlider v => 0 < len ∧ 0 ≤ v ∧ v ≤ (len : ℤ) - 1
  | .zoomSlider q => 0 < len ∧ 1/2 ≤ q ∧ q ≤ 5
  | .mouseDown _ => 0 < len
  | .mouseMove _ => 0 < len
  | .mouseUp => 0 < len
  | _ => true

/-- One event-handler application, for `frames.length = len`.  The
auto-play tick mirrors the effect guard
`if (isAutoPlaying && frames.length > 0)`: when it fails, no interval is
installed and the state is unchanged. -/
def step (len : ℕ) (s : ViewerState) : Input → ViewerState
  | .wheel d => { s with currentFrameIndex := wheelStep len d s.currentFrameIndex }
  | .keyArrowLeft =>
    { s with currentFrameIndex := arrowLeftStep len s.currentFrameIndex }
  | .keyArrowRight =>
    { s with currentFrameIndex := arrowRightStep len s.currentFrameIndex }
  | .keySpace => { s with isAutoPlaying := !s.isAutoPlaying }
  | .keyR => resetViewer s
  | .keyOther => s
  | .autoPlayTick =>
    if s.isAutoPlaying ∧ 0 < len then
      { s with currentFrameIndex := arrowRightStep len s.currentFrameIndex }
    else s
  | .frameSlider v => { s with currentFrameIndex := some v }
  | .zoomSlider q => { s with zoomLevel := q }
  | .mouseDown p => { s with isDragging := true, lastMousePos := p }
  | .mouseMove p =>
    if s.isDragging then
      { s with
        panPosition := ⟨s.panPosition.x + (p.x - s.lastMousePos.x),
                        s.panPosition.y + (p.y - s.lastMousePos.y)⟩,
        lastMousePos := p }
    else s
  | .mouseUp => { s with isDragging := false }

/-- States reachable from the initial state through deliverable events. -/
inductive Reachable (len : ℕ) : ViewerState → Prop where
  | init : Reachable len initialViewerState
  | next {s : ViewerState} {i : Input} : Reachable len s →
      validInput len i = true → Reachable len (step len s i)

/-- What the viewer shows: the placeholder card when
`frames.length === 0`, else `frames[currentFrameIndex]` (`none` both for
the placeholder and for an out-of-range or `NaN` lookup, which the DOM
renders as a broken image). -/
def renderedFrame (frames : List String) (s : ViewerState) :
    Option String :=
  if frames.length = 0 then none
  else match s.currentFrameIndex with
    | none => none
    | some i => if h : 0 ≤ i ∧ i.toNat < frames.length
        then some (frames.get ⟨i.toNat, h.2⟩) else none

/-! ## Helper lemmas -/

lemma runningProgressReports_eq (n : ℕ) :
    runningProgressReports n = 0 :: extractProgressReports n := by
  simp [runningProgressReports, handleExtractProgressEvents,
    List.filter_append, List.filter_map, Function.comp]

lemma jsMod_of_nonneg (a : ℤ) (len : ℕ) (ha : 0 ≤ a) (hlen : 0 < len) :
    jsMod a len = some (a % (len : ℤ)) := by
  have h0 : ((len : ℤ)) ≠ 0 := by exact_mod_cast hlen.ne'
  simp only [jsMod, if_neg h0]
  rw [Int.tmod_eq_emod ha (by positivity)]

lemma emod_bounds (a : ℤ) (len : ℕ) (hlen : 0 < len) :
    0 ≤ a % (len : ℤ) ∧ a % (len : ℤ) < len := by
  have h0 : ((len : ℤ)) ≠ 0 := by exact_mod_cast hlen.ne'
  exact ⟨Int.emod_nonneg a h0,
    Int.emod_lt_of_pos a (by exact_mod_cast hlen)⟩

/-! ## Claim theorems -/

/-- C1: for every video source with finite positive duration `D` and
requested `frameCount = n ≥ 1`, a successful run of `extractFrames`
returns exactly `n` frames, the `i`-th sampled at time `i*D/n`, and each
sample time is strictly less than `D`. -/
theorem extract_count_and_times (rasterize : ℚ → String)
    (video : VideoSource) (n : ℕ) (hD : 0 < video.duration) (hn : 1 ≤ n) :
    (extractFrames rasterize true video n).length = n ∧
    (∀ i, i < n → (extractFrames rasterize true video n)[i]? =
      some (rasterize ((i : ℚ) * video.duration / n))) ∧
    (∀ i, i < n → (i : ℚ) * video.duration / n < video.duration) := by
  have hn0 : (0 : ℚ) < n := by exact_mod_cast hn
  refine ⟨by simp [extractFrames], fun i hi => ?_, fun i hi => ?_⟩
  · simp [extractFrames, List.getElem?_map, List.getElem?_range, hi,
      sampleTime, mul_div_assoc]
  · have hi' : (i : ℚ) < n := by exact_mod_cast hi
    rw [div_lt_iff₀ hn0]
    have := mul_lt_mul_of_pos_right hi' hD
    linarith

/-- Witness for C1 at a 10-second video and 10 requested frames. -/
theorem extract_count_and_times_witness :
    (extractFrames (fun _ => "f") true ⟨10, 4, 3⟩ 10).length = 10 ∧
    (∀ i : ℕ, i < 10 →
      (extractFrames (fun _ => "f") true ⟨10, 4, 3⟩ 10)[i]? = some "f") ∧
    (∀ i : ℕ, i < 10 →
      (i : ℚ) * (10 : ℚ) / ((10 : ℕ) : ℚ) < (10 : ℚ)) :=
  extract_count_and_times (fun _ => "f") ⟨10, 4, 3⟩ 10 (by norm_num)
    (by norm_num)

/-- C4: during one extraction the progress reports made while
`isExtracting` is true are non-decreasing, start at 0 (the reset at the
start of `handleExtractFrames`), and end at 100; the `finally` block's
reset to 0 happens only after `isExtracting` has been cleared. -/
theorem progress_monotone (n : ℕ) (hn : 1 ≤ n) :
    (runningProgressReports n).Chain' (· ≤ ·) ∧
    (runningProgressReports n).head? = some 0 ∧
    (runningProgressReports n).getLast? = some 100 := by
  obtain ⟨m, rfl⟩ : ∃ m, n = m + 1 := ⟨n - 1, by omega⟩
  have hn0 : (0 : ℚ) < ((m + 1 : ℕ) : ℚ) := by exact_mod_cast Nat.succ_pos m
  rw [runningProgressReports_eq]
  refine ⟨?_, rfl, ?_⟩
  · rw [List.chain'_cons']
    constructor
    · intro y hy
      have hy' : y ∈ extractProgressReports (m + 1) :=
        List.mem_of_mem_head? hy
      simp only [extractProgressReports, List.mem_map,
        List.mem_range] at hy'
      obtain ⟨i, _, rfl⟩ := hy'
      positivity
    · rw [extractProgressReports, List.chain'_map,
        List.chain'_range_succ]
      intro k _
      push_cast
      gcongr
      linarith
  · rw [extractProgressReports, List.range_succ]
    simp only [List.map_append, List.map_cons, List.map_nil]
    rw [← List.cons_append, List.getLast?_concat]
    have h1 : ((m : ℚ) + 1) = ((m + 1 : ℕ) : ℚ) := by push_cast; ring
    rw [h1, div_self hn0.ne']
    norm_num

/-- Witness for C4 at four requested frames. -/
theorem progress_monotone_witness :
    (runningProgressReports 4).Chain' (· ≤ ·) ∧
    (runningProgressReports 4).head? = some 0 ∧
    (runningProgressReports 4).getLast? = some 100 :=
  progress_monotone 4 (by norm_num)

/-- C6: for a video with positive natural dimensions, the canvas size
computed once before sampling preserves the video's width/height ratio
exactly, and neither canvas dimension exceeds the configured maximum
of 800. -/
theorem canvas_aspect_and_bounds (video : VideoSource)
    (hw : 0 < video.videoWidth) (hh : 0 < video.videoHeight) :
    (canvasSize video).1 / (canvasSize video).2 =
      video.videoWidth / video.videoHeight ∧
    (canvasSize video).1 ≤ 800 ∧ (canvasSize video).2 ≤ 800 := by
  simp only [canvasSize]
  split_ifs with hgt
  · have hW : 0 < min maxDimension video.videoWidth :=
      lt_min (by rw [maxDimension]; norm_num) hw
    have h3 : min maxDimension video.videoWidth ≤ 800 := by
      rw [← maxDimension]; exact min_le_left _ _
    refine ⟨?_, h3, ?_⟩
    · have hwne := hw.ne'
      have hhne := hh.ne'
      have hWne := hW.ne'
      field_simp
      ring
    · have h1 : 1 ≤ video.videoWidth / video.videoHeight :=
        (one_le_div hh).2 hgt.le
      have h2 : min maxDimension video.videoWidth /
          (video.videoWidth / video.videoHeight) ≤
          min maxDimension video.videoWidth := div_le_self hW.le h1
      linarith
  · have hH : 0 < min maxDimension video.videoHeight :=
      lt_min (by rw [maxDimension]; norm_num) hh
    have h3 : min maxDimension video.videoHeight ≤ 800 := by
      rw [← maxDimension]; exact min_le_left _ _
    refine ⟨?_, ?_, h3⟩
    · rw [mul_div_cancel_left₀ _ hH.ne']
    · have h1 : video.videoWidth / video.videoHeight ≤ 1 :=
        (div_le_one hh).2 (not_lt.1 hgt)
      have h2 : min maxDimension video.videoHeight *
          (video.videoWidth / video.videoHeight) ≤
          min maxDimension video.videoHeight :=
        mul_le_of_le_one_right hH.le h1
      linarith

/-- Witness for C6 at a 1920x1080 video. -/
theorem canvas_aspect_and_bounds_witness :
    (canvasSize ⟨10, 1920, 1080⟩).1 / (canvasSize ⟨10, 1920, 1080⟩).2 =
      (1920 : ℚ) / 1080 ∧
    (canvasSize ⟨10, 1920, 1080⟩).1 ≤ 800 ∧
    (canvasSize ⟨10, 1920, 1080⟩).2 ≤ 800 :=
  canvas_aspect_and_bounds ⟨10, 1920, 1080⟩ (by norm_num) (by norm_num)

/-- C7: a zero-frame extraction is a failure, not a valid empty result,
and `onFramesExtracted` is invoked only with the non-empty complete
sequence: the load-failure and missing-canvas runs (the only zero-frame
runs) pass nothing to the viewer, and the one successful run passes the
full `FRAME_SIZE`-frame sequence. -/
theorem extract_failure_policy (rasterize : ℚ → String)
    (video : VideoSource) :
    handleExtractFrames rasterize true .err = none ∧
    handleExtractFrames rasterize false .err = none ∧
    handleExtractFrames rasterize false (.ok video) = none ∧
    handleExtractFrames rasterize true (.ok video) =
      some (extractFrames rasterize true video FRAME_SIZE) ∧
    (extractFrames rasterize true video FRAME_SIZE).length = FRAME_SIZE ∧
    extractFrames rasterize true video FRAME_SIZE ≠ [] := by
  have hlen : (extractFrames rasterize true video FRAME_SIZE).length =
      FRAME_SIZE := by simp [extractFrames]
  refine ⟨rfl, rfl, by simp [handleExtractFrames, extractFrames], ?_, hlen, ?_⟩
  · rw [handleExtractFrames]
    simp only [hlen]
    rw [if_pos (by rw [FRAME_SIZE]; norm_num)]
  · intro hnil
    rw [hnil] at hlen
    simp [FRAME_SIZE] at hlen

/-- C8: a selected file whose MIME type does not start with `video/` is
rejected before any processing, leaving the stored video file and all
extractor state exactly as they were. -/
theorem reject_non_video_no_state_change (s : ExtractorState)
    (f : VideoFile) (h : jsStartsWith f.fileType "video/" = false) :
    handleFileSelect s (some f) = s := by
  rw [handleFileSelect, h]
  simp

/-- Witness for C8: selecting a PNG leaves the state untouched. -/
theorem reject_non_video_no_state_change_witness :
    handleFileSelect ⟨none, false, 0⟩ (some ⟨"a.png", "image/png"⟩) =
      (⟨none, false, 0⟩ : ExtractorState) :=
  reject_non_video_no_state_change ⟨none, false, 0⟩
    ⟨"a.png", "image/png"⟩ (by decide)

/-- C9: the extractor's default sample count `FRAME_SIZE` is 100, every
user-triggered extraction samples with exactly that count (yielding 100
frames on success), while the user-facing "Auto Extract" card speaks of
50 frames. -/
theorem default_frame_count (rasterize : ℚ → String)
    (video : VideoSource) :
    FRAME_SIZE = 100 ∧ indexAutoExtractCopyCount = 50 ∧
    indexAutoExtractCopyCount ≠ FRAME_SIZE ∧
    handleExtractFrames rasterize true (.ok video) =
      some (extractFrames rasterize true video FRAME_SIZE) ∧
    (extractFrames rasterize true video FRAME_SIZE).length = 100 := by
  have hlen : (extractFrames rasterize true video FRAME_SIZE).length =
      FRAME_SIZE := by simp [extractFrames]
  refine ⟨rfl, rfl, by decide, ?_, hlen⟩
  rw [handleExtractFrames]
  simp only [hlen]
  rw [if_pos (by rw [FRAME_SIZE]; norm_num)]

lemma clamp_bounds (len : ℕ) (hlen : 0 < len) (x : ℤ) :
    0 ≤ max 0 (min ((len : ℤ) - 1) x) ∧
    max 0 (min ((len : ℤ) - 1) x) < (len : ℤ) := by
  have hl1 : (1 : ℤ) ≤ (len : ℤ) := by exact_mod_cast hlen
  refine ⟨le_max_left 0 _, ?_⟩
  have h1 : min ((len : ℤ) - 1) x ≤ (len : ℤ) - 1 := min_le_left _ _
  have h2 := max_le (by omega : (0 : ℤ) ≤ (len : ℤ) - 1) h1
  omega

/-- C2: with a non-empty frame sequence, every state reachable through
any sequence of deliverable inputs keeps `currentFrameIndex` an integer
in `[0, len)` and `zoomLevel` in `[0.5, 5]`. -/
theorem viewer_invariants (len : ℕ) (s : ViewerState) (hlen : 0 < len)
    (hs : Reachable len s) :
    (∃ i : ℤ, s.currentFrameIndex = some i ∧ 0 ≤ i ∧ i < (len : ℤ)) ∧
    1/2 ≤ s.zoomLevel ∧ s.zoomLevel ≤ 5 := by
  have hl1 : (1 : ℤ) ≤ (len : ℤ) := by exact_mod_cast hlen
  induction hs with
  | init =>
    refine ⟨⟨0, rfl, le_refl 0, by omega⟩, ?_, ?_⟩ <;>
      norm_num [initialViewerState]
  | @next s' inp hr hv ih =>
    obtain ⟨⟨j, hj, hj0, hjlen⟩, hz1, hz2⟩ := ih
    cases inp with
    | wheel d =>
      refine ⟨?_, hz1, hz2⟩
      refine ⟨max 0 (min ((len : ℤ) - 1) (j + if d > 0 then 1 else -1)),
        ?_, clamp_bounds len hlen _⟩
      simp [step, wheelStep, hj]
    | keyArrowLeft =>
      refine ⟨?_, hz1, hz2⟩
      have ha : 0 ≤ j - 1 + (len : ℤ) := by omega
      refine ⟨(j - 1 + (len : ℤ)) % (len : ℤ), ?_,
        emod_bounds _ len hlen⟩
      simp only [step, arrowLeftStep, hj]
      exact jsMod_of_nonneg _ len ha hlen
    | keyArrowRight =>
      refine ⟨?_, hz1, hz2⟩
      refine ⟨(j + 1) % (len : ℤ), ?_, emod_bounds _ len hlen⟩
      simp only [step, arrowRightStep, hj]
      exact jsMod_of_nonneg _ len (by omega) hlen
    | keySpace => exact ⟨⟨j, hj, hj0, hjlen⟩, hz1, hz2⟩
    | keyR =>
      refine ⟨⟨0, rfl, le_refl 0, by omega⟩, ?_, ?_⟩ <;>
        norm_num [step, resetViewer]
    | keyOther => exact ⟨⟨j, hj, hj0, hjlen⟩, hz1, hz2⟩
    | autoPlayTick =>
      by_cases hc : s'.isAutoPlaying = true ∧ 0 < len
      · refine ⟨?_, ?_, ?_⟩
        · refine ⟨(j + 1) % (len : ℤ), ?_, emod_bounds _ len hlen⟩
          simp only [step, if_pos hc, arrowRightStep, hj]
          exact jsMod_of_nonneg _ len (by omega) hlen
        · simpa [step, if_pos hc] using hz1
        · simpa [step, if_pos hc] using hz2
      · have h1 : step len s' .autoPlayTick = s' := by
          simp only [step]
          rw [if_neg hc]
        rw [h1]
        exact ⟨⟨j, hj, hj0, hjlen⟩, hz1, hz2⟩
    | frameSlider v =>
      simp only [validInput, decide_eq_true_eq] at hv
      exact ⟨⟨v, rfl, hv.2.1, by omega⟩, hz1, hz2⟩
    | zoomSlider q =>
      simp only [validInput, decide_eq_true_eq] at hv
      exact ⟨⟨j, hj, hj0, hjlen⟩, hv.2.1, hv.2.2⟩
    | mouseDown p => exact ⟨⟨j, hj, hj0, hjlen⟩, hz1, hz2⟩
    | mouseMove p =>
      have h1 : (step len s' (.mouseMove p)).currentFrameIndex =
          s'.currentFrameIndex := by
        simp only [step]
        split <;> rfl
      have h2 : (step len s' (.mouseMove p)).zoomLevel = s'.zoomLevel := by
        simp only [step]
        split <;> rfl
      exact ⟨⟨j, h1 ▸ hj, hj0, hjlen⟩, h2 ▸ hz1, h2 ▸ hz2⟩
    | mouseUp => exact ⟨⟨j, hj, hj0, hjlen⟩, hz1, hz2⟩

/-- Witness for C2: the initial state of a one-frame viewer. -/
theorem viewer_invariants_witness :
    (∃ i : ℤ, initialViewerState.currentFrameIndex = some i ∧
      0 ≤ i ∧ i < ((1 : ℕ) : ℤ)) ∧
    1/2 ≤ initialViewerState.zoomLevel ∧
    initialViewerState.zoomLevel ≤ 5 :=
  viewer_invariants 1 initialViewerState (by norm_num) Reachable.init

/-- C3 (counterexample): with an empty frame sequence the `window`
keydown listener is still installed (the hooks run before the early
placeholder return), and a left-arrow press does change the viewer
state: `(0 - 1 + 0) % 0` is `NaN`, so `currentFrameIndex` moves from 0
to `NaN`. -/
theorem empty_guard_counterexample :
    validInput 0 Input.keyArrowLeft = true ∧
    step 0 initialViewerState Input.keyArrowLeft ≠ initialViewerState := by
  refine ⟨rfl, fun h => ?_⟩
  have h1 := congrArg ViewerState.currentFrameIndex h
  simp [step, arrowLeftStep, initialViewerState, jsMod] at h1

/-- C3 (amended): with an empty frame sequence the viewer renders the
placeholder, and wheel, slider and mouse events cannot be delivered
(their handlers are attached only by the unrendered container and
sliders) while auto-play ticks and unrecognized keys are no-ops; but the
still-installed keydown listener makes an arrow key set
`currentFrameIndex` to `NaN`, spacebar toggle auto-play, and `r` reset
the view. -/
theorem empty_guard_amended (s : ViewerState) (d : ℚ) (v : ℤ) (q : ℚ)
    (p : Vec2) :
    validInput 0 (Input.wheel d) = false ∧
    validInput 0 (Input.frameSlider v) = false ∧
    validInput 0 (Input.zoomSlider q) = false ∧
    validInput 0 (Input.mouseDown p) = false ∧
    validInput 0 (Input.mouseMove p) = false ∧
    validInput 0 Input.mouseUp = false ∧
    step 0 s Input.autoPlayTick = s ∧
    step 0 s Input.keyOther = s ∧
    renderedFrame [] s = none ∧
    (step 0 s Input.keyArrowLeft).currentFrameIndex = none ∧
    (step 0 s Input.keyArrowRight).currentFrameIndex = none ∧
    step 0 s Input.keySpace = { s with isAutoPlaying := !s.isAutoPlaying } ∧
    step 0 s Input.keyR = resetViewer s := by
  refine ⟨rfl, rfl, rfl, rfl, rfl, rfl, ?_, rfl, rfl, ?_, ?_, rfl, rfl⟩
  · simp [step]
  · cases h : s.currentFrameIndex <;>
      simp [step, arrowLeftStep, jsMod, h]
  · cases h : s.currentFrameIndex <;>
      simp [step, arrowRightStep, jsMod, h]

/-- C5: with any non-empty frame sequence, wheel navigation clamps the
index to `[0, len-1]` (a downward scroll at the last index stays
there), while arrow keys and auto-play ticks wrap modulo the length (a
right arrow at the last index moves to 0). -/
theorem wrap_vs_clamp (len : ℕ) (s : ViewerState) (i : ℤ)
    (hlen : 0 < len) (hidx : s.currentFrameIndex = some i)
    (h0 : 0 ≤ i) (hi : i < (len : ℤ)) :
    (∀ d : ℚ, 0 < d →
      (step len s (Input.wheel d)).currentFrameIndex =
        some (min ((len : ℤ) - 1) (i + 1))) ∧
    (∀ d : ℚ, d ≤ 0 →
      (step len s (Input.wheel d)).currentFrameIndex =
        some (max 0 (i - 1))) ∧
    (step len s Input.keyArrowRight).currentFrameIndex =
      some ((i + 1) % (len : ℤ)) ∧
    (step len s Input.keyArrowLeft).currentFrameIndex =
      some ((i - 1 + (len : ℤ)) % (len : ℤ)) ∧
    (s.isAutoPlaying = true →
      (step len s Input.autoPlayTick).currentFrameIndex =
        some ((i + 1) % (len : ℤ))) ∧
    (i = (len : ℤ) - 1 →
      (step len s (Input.wheel 1)).currentFrameIndex =
        some ((len : ℤ) - 1) ∧
      (step len s Input.keyArrowRight).currentFrameIndex = some 0) := by
  have hl1 : (1 : ℤ) ≤ (len : ℤ) := by exact_mod_cast hlen
  have hA : ∀ d : ℚ, 0 < d →
      (step len s (Input.wheel d)).currentFrameIndex =
        some (min ((len : ℤ) - 1) (i + 1)) := by
    intro d hd
    have hmax : max 0 (min ((len : ℤ) - 1) (i + 1)) =
        min ((len : ℤ) - 1) (i + 1) :=
      max_eq_right (le_min (by omega) (by omega))
    simp [step, wheelStep, hidx, hd, hmax]
  have hB : ∀ d : ℚ, d ≤ 0 →
      (step len s (Input.wheel d)).currentFrameIndex =
        some (max 0 (i - 1)) := by
    intro d hd
    have hnd : ¬ d > 0 := not_lt.2 hd
    simp [step, wheelStep, hidx, hnd]
    omega
  have hC : (step len s Input.keyArrowRight).currentFrameIndex =
      some ((i + 1) % (len : ℤ)) := by
    simp only [step, hidx, arrowRightStep]
    exact jsMod_of_nonneg _ len (by omega) hlen
  refine ⟨hA, hB, hC, ?_, ?_, ?_⟩
  · simp only [step, hidx, arrowLeftStep]
    exact jsMod_of_nonneg _ len (by omega) hlen
  · intro hap
    simp only [step, if_pos (And.intro hap hlen), hidx, arrowRightStep]
    exact jsMod_of_nonneg _ len (by omega) hlen
  · intro hlast
    constructor
    · rw [hA 1 (by norm_num), hlast]
      congr 1
      omega
    · rw [hC, hlast]
      have h2 : ((len : ℤ) - 1 + 1) = (len : ℤ) := by ring
      rw [h2, Int.emod_self]

/-- Witness for C5: a 5-frame sequence at index 4. -/
theorem wrap_vs_clamp_witness :
    (∀ d : ℚ, 0 < d →
      (step 5 { initialViewerState with currentFrameIndex := some 4 }
        (Input.wheel d)).currentFrameIndex =
        some (min (((5 : ℕ) : ℤ) - 1) (4 + 1))) ∧
    (∀ d : ℚ, d ≤ 0 →
      (step 5 { initialViewerState with currentFrameIndex := some 4 }
        (Input.wheel d)).currentFrameIndex = some (max 0 (4 - 1))) ∧
    (step 5 { initialViewerState with currentFrameIndex := some 4 }
      Input.keyArrowRight).currentFrameIndex =
      some ((4 + 1) % ((5 : ℕ) : ℤ)) ∧
    (step 5 { initialViewerState with currentFrameIndex := some 4 }
      Input.keyArrowLeft).currentFrameIndex =
      some ((4 - 1 + ((5 : ℕ) : ℤ)) % ((5 : ℕ) : ℤ)) ∧
    (({ initialViewerState with
        currentFrameIndex := some 4 } : ViewerState).isAutoPlaying = true →
      (step 5 { initialViewerState with currentFrameIndex := some 4 }
        Input.autoPlayTick).currentFrameIndex =
        some ((4 + 1) % ((5 : ℕ) : ℤ))) ∧
    ((4 : ℤ) = ((5 : ℕ) : ℤ) - 1 →
      (step 5 { initialViewerState with currentFrameIndex := some 4 }
        (Input.wheel 1)).currentFrameIndex = some (((5 : ℕ) : ℤ) - 1) ∧
      (step 5 { initialViewerState with currentFrameIndex := some 4 }
        Input.keyArrowRight).currentFrameIndex = some 0) :=
  wrap_vs_clamp 5 { initialViewerState with currentFrameIndex := some 4 }
    4 (by norm_num) rfl (by norm_num) (by norm_num)

/-- C10: for an in-range index, a wheel event with `deltaY ≤ 0` —
including exactly 0 — decrements the index (clamped at 0), a wheel
event with `deltaY > 0` increments it (clamped at `len-1`), and a
zero-delta wheel at a positive index really moves: it is a scroll-up
step, not a no-op. -/
theorem wheel_zero_delta (len : ℕ) (s : ViewerState) (i : ℤ)
    (hlen : 0 < len) (hidx : s.currentFrameIndex = some i)
    (h0 : 0 ≤ i) (hi : i < (len : ℤ)) :
    (∀ d : ℚ, d ≤ 0 →
      (step len s (Input.wheel d)).currentFrameIndex =
        some (max 0 (i - 1))) ∧
    (∀ d : ℚ, 0 < d →
      (step len s (Input.wheel d)).currentFrameIndex =
        some (min ((len : ℤ) - 1) (i + 1))) ∧
    (step len s (Input.wheel 0)).currentFrameIndex =
      some (max 0 (i - 1)) ∧
    (1 ≤ i →
      (step len s (Input.wheel 0)).currentFrameIndex ≠ some i) := by
  have hl1 : (1 : ℤ) ≤ (len : ℤ) := by exact_mod_cast hlen
  have hB : ∀ d : ℚ, d ≤ 0 →
      (step len s (Input.wheel d)).currentFrameIndex =
        some (max 0 (i - 1)) := by
    intro d hd
    have hnd : ¬ d > 0 := not_lt.2 hd
    simp [step, wheelStep, hidx, hnd]
    omega
  have hZ : (step len s (Input.wheel 0)).currentFrameIndex =
      some (max 0 (i - 1)) := hB 0 (le_refl 0)
  refine ⟨hB, ?_, hZ, ?_⟩
  · intro d hd
    have hmax : max 0 (min ((len : ℤ) - 1) (i + 1)) =
        min ((len : ℤ) - 1) (i + 1) :=
      max_eq_right (le_min (by omega) (by omega))
    simp [step, wheelStep, hidx, hd, hmax]
  · intro h1 heq
    rw [hZ] at heq
    have := Option.some.inj heq
    omega

/-- Witness for C10: a 3-frame sequence at index 1. -/
theorem wheel_zero_delta_witness :
    (∀ d : ℚ, d ≤ 0 →
      (step 3 { initialViewerState with currentFrameIndex := some 1 }
        (Input.wheel d)).currentFrameIndex = some (max 0 (1 - 1))) ∧
    (∀ d : ℚ, 0 < d →
      (step 3 { initialViewerState with currentFrameIndex := some 1 }
        (Input.wheel d)).currentFrameIndex =
        some (min (((3 : ℕ) : ℤ) - 1) (1 + 1))) ∧
    (step 3 { initialViewerState with currentFrameIndex := some 1 }
      (Input.wheel 0)).currentFrameIndex = some (max 0 (1 - 1)) ∧
    ((1 : ℤ) ≤ 1 →
      (step 3 { initialViewerState with currentFrameIndex := some 1 }
        (Input.wheel 0)).currentFrameIndex ≠ some 1) :=
  wheel_zero_delta 3 { initialViewerState with currentFrameIndex := some 1 }
    1 (by norm_num) rfl (by norm_num) (by norm_num)

end ZoomInfinityDream
